import Mathlib

/-!
Verification of the cpp-jwt core header (`include/jwt/jwt.hpp`): the
algorithm / type / registered-claims registries, the JWT header object,
and the JWT payload with its case-insensitive claim-name set.  The
encode / decode orchestration (`jwt_object`, `jwt_signature`) is only
declared in the header, so it is modelled from the specification where a
claim needs it.
-/

set_option autoImplicit false

namespace jwt

/-- A minimal JSON value, standing in for `nlohmann::json` values (the JSON
representation is an external collaborator of the library). -/
inductive jsonv where
  | Null : jsonv
  | Bool : Bool → jsonv
  | Num : Int → jsonv
  | Str : String → jsonv
  deriving DecidableEq, Repr

/-- A JSON object, as an association list of key/value pairs. -/
abbrev jsonObj := List (String × jsonv)

/-- Lookup of a key in a JSON object (exact, case-sensitive string match,
as `nlohmann::json::operator[]` does). -/
def objGet : jsonObj → String → Option jsonv
  | [], _ => Option.none
  | (k, v) :: rest, key => if k = key then some v else objGet rest key

/-- Insert-or-overwrite of a key in a JSON object at the exact key given,
as `json[key] = value` does. -/
def objInsert : jsonObj → String → jsonv → jsonObj
  | [], key, v => [(key, v)]
  | (k, w) :: rest, key, v =>
      if k = key then (k, v) :: rest else (k, w) :: objInsert rest key v

theorem objGet_objInsert_self (o : jsonObj) (k : String) (v : jsonv) :
    objGet (objInsert o k v) k = some v := by
  induction o with
  | nil => simp [objInsert, objGet]
  | cons hd tl ih =>
      obtain ⟨k0, v0⟩ := hd
      by_cases h : k0 = k
      · simp [objInsert, objGet, h]
      · simp [objInsert, objGet, h, ih]

/-- The `jwt::algorithm` enumeration, exactly as in the source (note the
extra `TERM` enumerator after `ES512`). -/
inductive algorithm where
  | NONE : algorithm
  | HS256 : algorithm
  | HS384 : algorithm
  | HS512 : algorithm
  | RS256 : algorithm
  | RS384 : algorithm
  | RS512 : algorithm
  | ES256 : algorithm
  | ES384 : algorithm
  | ES512 : algorithm
  | TERM : algorithm
  deriving DecidableEq, Repr

/-- The underlying integer value of each enumerator (`NONE = 0`, then
successive values, as the C++ enum-class assigns them). -/
def algorithm.toInt : algorithm → Int
  | .NONE => 0
  | .HS256 => 1
  | .HS384 => 2
  | .HS512 => 3
  | .RS256 => 4
  | .RS384 => 5
  | .RS512 => 6
  | .ES256 => 7
  | .ES384 => 8
  | .ES512 => 9
  | .TERM => 10

/-- The `switch` of `alg_to_str` over the underlying integer value of the
enum; the `default:` arm with its failing `assert(0)` is modelled by
`Option.none`.  Case arms appear in source order. -/
def alg_to_str_code (v : Int) : Option String :=
  if v = algorithm.toInt .HS256 then some "HS256"
  else if v = algorithm.toInt .HS384 then some "HS384"
  else if v = algorithm.toInt .HS512 then some "HS512"
  else if v = algorithm.toInt .RS256 then some "RS256"
  else if v = algorithm.toInt .RS384 then some "RS384"
  else if v = algorithm.toInt .RS512 then some "RS512"
  else if v = algorithm.toInt .ES256 then some "ES256"
  else if v = algorithm.toInt .ES384 then some "ES384"
  else if v = algorithm.toInt .ES512 then some "ES512"
  else if v = algorithm.toInt .TERM then some "TERM"
  else if v = algorithm.toInt .NONE then some "NONE"
  else Option.none

/-- `alg_to_str` restricted to the enumerators, where the switch always
returns a string. -/
def alg_to_str : algorithm → String
  | .HS256 => "HS256"
  | .HS384 => "HS384"
  | .HS512 => "HS512"
  | .RS256 => "RS256"
  | .RS384 => "RS384"
  | .RS512 => "RS512"
  | .ES256 => "ES256"
  | .ES384 => "ES384"
  | .ES512 => "ES512"
  | .TERM => "TERM"
  | .NONE => "NONE"

theorem alg_to_str_code_agrees (a : algorithm) :
    alg_to_str_code a.toInt = some (alg_to_str a) := by
  cases a <;> rfl

/-- The `jwt::type` enumeration (a single enumerator `JWT = 0`). -/
inductive type where
  | JWT : type
  deriving DecidableEq, Repr

/-- Underlying integer value of the `type` enumerators. -/
def type.toInt : type → Int
  | .JWT => 0

/-- The `switch` of `type_to_str` over the underlying integer value; the
`default:` arm with its failing `assert(0)` is modelled by `Option.none`. -/
def type_to_str_code (v : Int) : Option String :=
  if v = type.toInt .JWT then some "JWT" else Option.none

/-- `type_to_str` restricted to the enumerators. -/
def type_to_str : type → String
  | .JWT => "JWT"

/-- The `jwt::registered_claims` enumeration. -/
inductive registered_claims where
  | expiration : registered_claims
  | not_before : registered_claims
  | issuer : registered_claims
  | audience : registered_claims
  | issued_at : registered_claims
  | subject : registered_claims
  | jti : registered_claims
  deriving DecidableEq, Repr

/-- The `reg_claims_to_str` mapping, exactly as its switch reads. -/
def reg_claims_to_str : registered_claims → String
  | .expiration => "exp"
  | .not_before => "nbf"
  | .issuer => "iss"
  | .audience => "aud"
  | .issued_at => "iat"
  | .subject => "sub"
  | .jti => "jti"

/-- The `jwt_header` data members: an algorithm and a type. -/
structure jwt_header where
  alg_ : algorithm
  typ_ : type
  deriving DecidableEq, Repr

/-- A default-constructed `jwt_header`: the member initializers give
`alg_ = algorithm::NONE` and `typ_ = type::JWT`. -/
def jwt_header_default : jwt_header := ⟨algorithm.NONE, type.JWT⟩

/-- The setter `jwt_header::algo(alg)`, which assigns `alg_`. -/
def jwt_header.algo (h : jwt_header) (alg : algorithm) : jwt_header :=
  ⟨alg, h.typ_⟩

/-- `jwt_header::create_json_obj`: builds a fresh JSON object and assigns
`obj["typ"]` then `obj["alg"]` from the current members. -/
def jwt_header.create_json_obj (h : jwt_header) : jsonObj :=
  objInsert (objInsert [] "typ" (jsonv.Str (type_to_str h.typ_)))
    "alg" (jsonv.Str (alg_to_str h.alg_))

/-- C4 counterexample: the algorithm type is not closed over the ten listed
values; the source enum has an eleventh enumerator `TERM`. -/
theorem algorithm_not_ten_values :
    algorithm.TERM ∉
      [algorithm.NONE, algorithm.HS256, algorithm.HS384, algorithm.HS512,
       algorithm.RS256, algorithm.RS384, algorithm.RS512,
       algorithm.ES256, algorithm.ES384, algorithm.ES512] ∧
    alg_to_str algorithm.TERM = "TERM" := by
  constructor
  · decide
  · rfl

/-- C4 (amended): the algorithm type is a closed variant over exactly the
ten registered values plus the sentinel `TERM`, and `alg_to_str` maps each
of the ten to its case-sensitive registered token name and `TERM` to
`"TERM"`. -/
theorem algorithm_closed_eleven :
    (∀ a : algorithm, a ∈
      [algorithm.NONE, algorithm.HS256, algorithm.HS384, algorithm.HS512,
       algorithm.RS256, algorithm.RS384, algorithm.RS512,
       algorithm.ES256, algorithm.ES384, algorithm.ES512, algorithm.TERM]) ∧
    alg_to_str algorithm.NONE = "NONE" ∧
    alg_to_str algorithm.HS256 = "HS256" ∧
    alg_to_str algorithm.HS384 = "HS384" ∧
    alg_to_str algorithm.HS512 = "HS512" ∧
    alg_to_str algorithm.RS256 = "RS256" ∧
    alg_to_str algorithm.RS384 = "RS384" ∧
    alg_to_str algorithm.RS512 = "RS512" ∧
    alg_to_str algorithm.ES256 = "ES256" ∧
    alg_to_str algorithm.ES384 = "ES384" ∧
    alg_to_str algorithm.ES512 = "ES512" ∧
    alg_to_str algorithm.TERM = "TERM" := by
  refine ⟨fun a => ?_, rfl, rfl, rfl, rfl, rfl, rfl, rfl, rfl, rfl, rfl, rfl⟩
  cases a <;> decide

/-- C7: the registered-claim name function maps the seven registered claim
identifiers to exactly their wire names. -/
theorem reg_claims_to_str_table :
    reg_claims_to_str registered_claims.expiration = "exp" ∧
    reg_claims_to_str registered_claims.not_before = "nbf" ∧
    reg_claims_to_str registered_claims.issuer = "iss" ∧
    reg_claims_to_str registered_claims.audience = "aud" ∧
    reg_claims_to_str registered_claims.issued_at = "iat" ∧
    reg_claims_to_str registered_claims.subject = "sub" ∧
    reg_claims_to_str registered_claims.jti = "jti" :=
  ⟨rfl, rfl, rfl, rfl, rfl, rfl, rfl⟩

/-- C8: the registry name switches are total over the closed enumerations:
for every enumerator of `algorithm` and of `type` the switch returns a name
string, so the `assert(0)` default arms (modelled `Option.none`) are
unreachable. -/
theorem alg_type_to_str_total :
    (∀ a : algorithm, (alg_to_str_code a.toInt).isSome = true) ∧
    (∀ t : type, (type_to_str_code t.toInt).isSome = true) := by
  constructor
  · intro a; cases a <;> decide
  · intro t; cases t; decide

/-- C5: after `algo(a)`, the header serializes to exactly the two entries
`typ` (its fixed token) and `alg` (the name of `a`), and the serialization
depends only on the current state: two headers with different histories
serialize identically after the same mutation. -/
theorem header_algo_create_json :
    (∀ (h : jwt_header) (a : algorithm),
      ((h.algo a).create_json_obj.map Prod.fst = ["typ", "alg"] ∧
       objGet (h.algo a).create_json_obj "alg" = some (jsonv.Str (alg_to_str a)) ∧
       objGet (h.algo a).create_json_obj "typ" =
         some (jsonv.Str (type_to_str (h.algo a).typ_)))) ∧
    (∀ (h1 h2 : jwt_header) (a : algorithm),
      (h1.algo a).create_json_obj = (h2.algo a).create_json_obj) := by
  constructor
  · intro h a
    cases h with
    | mk alg0 typ0 =>
        cases typ0
        refine ⟨rfl, ?_, ?_⟩
        · simp [jwt_header.algo, jwt_header.create_json_obj, objInsert, objGet]
        · simp [jwt_header.algo, jwt_header.create_json_obj, objInsert, objGet]
  · intro h1 h2 a
    cases h1 with
    | mk a1 t1 =>
        cases h2 with
        | mk a2 t2 => cases t1; cases t2; rfl

/-- C10: a default-constructed header has algorithm `NONE` and type `JWT`,
and its JSON serialization holds exactly `alg = "NONE"` and `typ = "JWT"`. -/
theorem default_header_json :
    jwt_header_default.alg_ = algorithm.NONE ∧
    jwt_header_default.typ_ = type.JWT ∧
    jwt_header_default.create_json_obj =
      [("typ", jsonv.Str "JWT"), ("alg", jsonv.Str "NONE")] ∧
    objGet jwt_header_default.create_json_obj "alg" = some (jsonv.Str "NONE") ∧
    objGet jwt_header_default.create_json_obj "typ" = some (jsonv.Str "JWT") := by
  refine ⟨rfl, rfl, rfl, rfl, rfl⟩

/-- ASCII lower-casing of a single character, as C `tolower` behaves in the
default locale. -/
def asciiLower (c : Char) : Char :=
  if 'A' ≤ c ∧ c ≤ 'Z' then Char.ofNat (c.toNat + 32) else c

/-- Three-way case-insensitive comparison of character sequences, as C
`strcasecmp`: compare lower-cased characters left to right; at the first
difference the result is the signed difference, and a proper prefix
compares less. -/
def strcasecmp : List Char → List Char → Int
  | [], [] => 0
  | [], _ :: _ => -1
  | _ :: _, [] => 1
  | a :: as, b :: bs =>
      if ((asciiLower a).toNat : Int) - ((asciiLower b).toNat : Int) = 0
      then strcasecmp as bs
      else ((asciiLower a).toNat : Int) - ((asciiLower b).toNat : Int)

theorem char_eq_of_toNat_eq {a b : Char} (h : a.toNat = b.toNat) : a = b :=
  Char.eq_of_val_eq (UInt32.eq_of_toBitVec_eq (BitVec.eq_of_toNat_eq h))

theorem strcasecmp_eq_zero_iff (as bs : List Char) :
    strcasecmp as bs = 0 ↔ as.map asciiLower = bs.map asciiLower := by
  induction as generalizing bs with
  | nil => cases bs <;> simp [strcasecmp]
  | cons a as ih =>
      cases bs with
      | nil => simp [strcasecmp]
      | cons b bs =>
          simp only [strcasecmp, List.map_cons]
          by_cases h : ((asciiLower a).toNat : Int) - ((asciiLower b).toNat : Int) = 0
          · have hab : asciiLower a = asciiLower b := by
              apply char_eq_of_toNat_eq
              omega
            simp [h, hab, ih]
          · have hab : asciiLower a ≠ asciiLower b := by
              intro he
              rw [he] at h
              omega
            simp [h, hab]

theorem strcasecmp_swap (as bs : List Char) :
    strcasecmp bs as = - strcasecmp as bs := by
  induction as generalizing bs with
  | nil => cases bs <;> simp [strcasecmp]
  | cons a as ih =>
      cases bs with
      | nil => simp [strcasecmp]
      | cons b bs =>
          simp only [strcasecmp]
          by_cases h : ((asciiLower a).toNat : Int) - ((asciiLower b).toNat : Int) = 0
          · have h' : ((asciiLower b).toNat : Int) - ((asciiLower a).toNat : Int) = 0 := by
              omega
            simp [h, h', ih]
          · have h' : ((asciiLower b).toNat : Int) - ((asciiLower a).toNat : Int) ≠ 0 := by
              omega
            simp [h, h']

/-- The `jwt_payload::case_compare` ordering functor of the claim-name set:
`strcasecmp(lhs, rhs) < 0`. -/
def case_compare (lhs rhs : String) : Bool :=
  decide (strcasecmp lhs.data rhs.data < 0)

/-- Lookup of an equivalent element in the `std::set` keyed by
`case_compare`: an element `m` answers the query `n` when neither
`case_compare m n` nor `case_compare n m` holds. -/
def setFind (names : List String) (n : String) : Bool :=
  names.any fun m => (!(case_compare m n)) && (!(case_compare n m))

/-- The `std::set::emplace` of a claim name: inserts `n` unless an
equivalent element is already present, in which case the set is unchanged
and keeps the original element. -/
def setEmplace (names : List String) (n : String) : List String :=
  if setFind names n then names else names ++ [n]

theorem case_equiv_iff (m n : String) :
    ((!(case_compare m n)) && (!(case_compare n m))) = true ↔
      strcasecmp m.data n.data = 0 := by
  have h := strcasecmp_swap m.data n.data
  simp only [case_compare, Bool.and_eq_true, Bool.not_eq_true',
    decide_eq_false_iff_not, not_lt, h]
  omega

theorem setFind_iff (names : List String) (n : String) :
    setFind names n = true ↔ ∃ m ∈ names, strcasecmp m.data n.data = 0 := by
  simp only [setFind, List.any_eq_true]
  constructor
  · rintro ⟨m, hm, hb⟩
    exact ⟨m, hm, (case_equiv_iff m n).1 hb⟩
  · rintro ⟨m, hm, hz⟩
    exact ⟨m, hm, (case_equiv_iff m n).2 hz⟩

/-- The `jwt_payload` data members: the JSON payload object and the set of
claim names keyed by `case_compare`. -/
structure jwt_payload where
  payload_ : jsonObj
  claim_names_ : List String
  deriving DecidableEq, Repr

/-- `jwt_payload::add_claim(cname, cvalue, overwrite)`: returns false with
no mutation when a case-insensitive duplicate exists and `overwrite` is
false; otherwise emplaces the name into the set, writes the value into the
JSON payload at the exact casing supplied, and returns true. -/
def add_claim (p : jwt_payload) (cname : String) (cvalue : jsonv)
    (overwrite : Bool) : Bool × jwt_payload :=
  if setFind p.claim_names_ cname && !overwrite then (false, p)
  else
    (true, ⟨objInsert p.payload_ cname cvalue, setEmplace p.claim_names_ cname⟩)

/-- `jwt_payload::has_claim(cname)`: membership count in the
case-insensitive claim-name set. -/
def has_claim (p : jwt_payload) (cname : String) : Bool :=
  setFind p.claim_names_ cname

/-- `jwt_payload::has_claim_with_value(cname, cvalue)`: a case-insensitive
set lookup followed by `cvalue == payload_[cname]` at the exactly-cased
queried key; `operator[] const` of the JSON library on an absent key is an
assertion failure, modelled `Option.none`. -/
def has_claim_with_value (p : jwt_payload) (cname : String) (cvalue : jsonv) :
    Option Bool :=
  if setFind p.claim_names_ cname then
    match objGet p.payload_ cname with
    | some v => some (cvalue == v)
    | Option.none => Option.none
  else some false

/-- A payload holding the single claim `sub` with value `1`. -/
def p_sub : jwt_payload := ⟨[("sub", jsonv.Num 1)], ["sub"]⟩

/-- C2: adding a claim whose case-insensitive name is already present with
`overwrite = false` returns false and leaves both the JSON payload and the
claim-name set unchanged; in particular after `add_claim "sub" v1`
succeeds, `add_claim "SUB" v2 false` returns false, changes nothing, and
`has_claim_with_value "sub" v1` still reports true. -/
theorem add_claim_reject_duplicate :
    (∀ (p : jwt_payload) (n : String) (v : jsonv),
      setFind p.claim_names_ n = true → add_claim p n v false = (false, p)) ∧
    (∀ (p : jwt_payload) (v1 v2 : jsonv),
      (add_claim p "sub" v1 false).fst = true →
      ((add_claim (add_claim p "sub" v1 false).snd "SUB" v2 false).fst = false ∧
       (add_claim (add_claim p "sub" v1 false).snd "SUB" v2 false).snd =
         (add_claim p "sub" v1 false).snd ∧
       has_claim_with_value (add_claim p "sub" v1 false).snd "sub" v1 =
         some true)) := by
  have key : ∀ (p : jwt_payload) (n : String) (v : jsonv),
      setFind p.claim_names_ n = true → add_claim p n v false = (false, p) := by
    intro p n v h
    simp [add_claim, h]
  refine ⟨key, ?_⟩
  intro p v1 v2 hsucc
  by_cases c : setFind p.claim_names_ "sub" = true
  · rw [key p "sub" v1 c] at hsucc
    simp at hsucc
  · have c' : setFind p.claim_names_ "sub" = false := by
      cases hb : setFind p.claim_names_ "sub" with
      | true => exact absurd hb c
      | false => rfl
    have hadd : add_claim p "sub" v1 false =
        (true, ⟨objInsert p.payload_ "sub" v1, p.claim_names_ ++ ["sub"]⟩) := by
      simp [add_claim, c', setEmplace]
    rw [hadd]
    have hfound : setFind (p.claim_names_ ++ ["sub"]) "SUB" = true := by
      rw [setFind_iff]
      exact ⟨"sub", by simp, by decide⟩
    have hfound2 : setFind (p.claim_names_ ++ ["sub"]) "sub" = true := by
      rw [setFind_iff]
      exact ⟨"sub", by simp, by decide⟩
    refine ⟨?_, ?_, ?_⟩
    · rw [key ⟨objInsert p.payload_ "sub" v1, p.claim_names_ ++ ["sub"]⟩ "SUB" v2
        hfound]
    · rw [key ⟨objInsert p.payload_ "sub" v1, p.claim_names_ ++ ["sub"]⟩ "SUB" v2
        hfound]
    · simp [has_claim_with_value, hfound2, objGet_objInsert_self]

/-- C2 witness: concrete instances of both parts of the duplicate-rejection
theorem. -/
theorem add_claim_reject_duplicate_w :
    add_claim p_sub "SUB" (jsonv.Num 9) false = (false, p_sub) ∧
    ((add_claim (add_claim ⟨[], []⟩ "sub" (jsonv.Num 1) false).snd "SUB"
        (jsonv.Num 2) false).fst = false ∧
     (add_claim (add_claim ⟨[], []⟩ "sub" (jsonv.Num 1) false).snd "SUB"
        (jsonv.Num 2) false).snd = (add_claim ⟨[], []⟩ "sub" (jsonv.Num 1) false).snd ∧
     has_claim_with_value (add_claim ⟨[], []⟩ "sub" (jsonv.Num 1) false).snd "sub"
        (jsonv.Num 1) = some true) :=
  ⟨add_claim_reject_duplicate.1 p_sub "SUB" (jsonv.Num 9) (by decide),
   add_claim_reject_duplicate.2 ⟨[], []⟩ (jsonv.Num 1) (jsonv.Num 2) (by decide)⟩

/-- C3 counterexample: in `p_sub` the original-casing key `sub` stores the
queried value `1`, so the claim predicts that `has_claim_with_value "SUB" 1`
returns true; the code instead indexes the JSON map with the queried casing
`SUB`, an absent key, and does not return true. -/
theorem has_claim_with_value_query_casing_cex :
    objGet p_sub.payload_ "sub" = some (jsonv.Num 1) ∧
    has_claim_with_value p_sub "SUB" (jsonv.Num 1) ≠ some true ∧
    has_claim_with_value p_sub "SUB" (jsonv.Num 1) = Option.none := by
  refine ⟨rfl, by decide, by decide⟩

/-- C3 (amended): `has_claim_with_value` looks the name up
case-insensitively in the claim-name set, but then reads the JSON payload
at the exactly-cased queried key, not at the originally stored casing: it
returns true exactly when the set lookup succeeds and the exact queried key
holds an equal value, and it hits the JSON library's absent-key assertion
(modelled `Option.none`) when the set lookup succeeds but the exact queried
key is absent. -/
theorem has_claim_with_value_exact_key :
    (∀ (p : jwt_payload) (n : String) (v : jsonv),
      (has_claim_with_value p n v = some true ↔
        (setFind p.claim_names_ n = true ∧ objGet p.payload_ n = some v))) ∧
    (∀ (p : jwt_payload) (n : String) (v : jsonv),
      setFind p.claim_names_ n = true → objGet p.payload_ n = Option.none →
      has_claim_with_value p n v = Option.none) := by
  constructor
  · intro p n v
    constructor
    · intro h
      by_cases c : setFind p.claim_names_ n = true
      · cases hg : objGet p.payload_ n with
        | none => simp [has_claim_with_value, c, hg] at h
        | some w =>
            refine ⟨c, ?_⟩
            simp only [has_claim_with_value, c, if_true, hg] at h
            have hw : v = w := by
              have := Option.some.inj h
              exact eq_of_beq this
            subst hw
            rfl
      · simp [has_claim_with_value, c] at h
    · rintro ⟨c, hg⟩
      simp [has_claim_with_value, c, hg]
  · intro p n v hc hg
    simp [has_claim_with_value, hc, hg]

/-- C3 amended witness: concrete instance hitting the absent-key branch. -/
theorem has_claim_with_value_exact_key_w :
    has_claim_with_value p_sub "SUB" (jsonv.Num 2) = Option.none :=
  has_claim_with_value_exact_key.2 p_sub "SUB" (jsonv.Num 2)
    (by decide) (by decide)

theorem strcasecmp_zero_trans {a b c : List Char}
    (h1 : strcasecmp a b = 0) (h2 : strcasecmp b c = 0) :
    strcasecmp a c = 0 := by
  rw [strcasecmp_eq_zero_iff] at h1 h2 ⊢
  exact h1.trans h2

theorem setFind_setEmplace (names : List String) (n1 n2 : String)
    (h : strcasecmp n1.data n2.data = 0) :
    setFind (setEmplace names n1) n2 = true := by
  unfold setEmplace
  by_cases c : setFind names n1 = true
  · rw [if_pos c]
    obtain ⟨m, hm, hz⟩ := (setFind_iff names n1).1 c
    exact (setFind_iff names n2).2 ⟨m, hm, strcasecmp_zero_trans hz h⟩
  · rw [if_neg c]
    exact (setFind_iff _ n2).2 ⟨n1, by simp, h⟩

/-- C6: after a successful `add_claim` under one casing, `has_claim` finds
the claim under any name equal to it up to ASCII case. -/
theorem has_claim_case_insensitive (p : jwt_payload) (n1 n2 : String)
    (v : jsonv) (ow : Bool)
    (hcase : strcasecmp n1.data n2.data = 0)
    (hsucc : (add_claim p n1 v ow).fst = true) :
    has_claim (add_claim p n1 v ow).snd n2 = true := by
  by_cases c : (setFind p.claim_names_ n1 && !ow) = true
  · rw [add_claim, if_pos c] at hsucc
    simp at hsucc
  · rw [add_claim, if_neg c]
    exact setFind_setEmplace p.claim_names_ n1 n2 hcase

/-- C6 witness: a claim added as `sub` is found by `has_claim "SuB"`. -/
theorem has_claim_case_insensitive_w :
    has_claim (add_claim ⟨[], []⟩ "sub" (jsonv.Num 1) false).snd "SuB" = true :=
  has_claim_case_insensitive ⟨[], []⟩ "sub" "SuB" (jsonv.Num 1) false
    (by decide) (by decide)

/-- C9: with `overwrite = true` and a name differing from a stored claim
name only in case, `add_claim` returns true, leaves the claim-name set
unchanged (emplacing an equivalent element is a no-op, so the originally
stored casing is kept), and writes the value into the JSON payload under
the newly supplied casing — so the JSON object can hold two keys differing
only by case while the name set holds one. -/
theorem add_claim_overwrite_case (p : jwt_payload) (n1 n2 : String) (v : jsonv)
    (hmem : n1 ∈ p.claim_names_)
    (hcase : strcasecmp n1.data n2.data = 0)
    (hne : n1 ≠ n2) :
    add_claim p n2 v true = (true, ⟨objInsert p.payload_ n2 v, p.claim_names_⟩) := by
  have hfound : setFind p.claim_names_ n2 = true :=
    (setFind_iff _ _).2 ⟨n1, hmem, hcase⟩
  have : n1 ≠ n2 := hne
  simp [add_claim, setEmplace, hfound]

/-- C9 witness: overwriting `sub` through the casing `SUB` returns true,
keeps the name set at `["sub"]`, and leaves the JSON payload with the two
keys `sub` and `SUB`. -/
theorem add_claim_overwrite_case_w :
    add_claim p_sub "SUB" (jsonv.Num 2) true =
      (true, ⟨[("sub", jsonv.Num 1), ("SUB", jsonv.Num 2)], ["sub"]⟩) :=
  add_claim_overwrite_case p_sub "sub" "SUB" (jsonv.Num 2)
    (by decide) (by decide) (by decide)

/-- `jwt_payload::create_json_obj`: returns the payload JSON object. -/
def jwt_payload.create_json_obj (p : jwt_payload) : jsonObj := p.payload_

/-- Split of a character sequence at `'.'` separators, accumulating the
current segment in reverse. -/
def splitDotsAux : List Char → List Char → List (List Char)
  | [], acc => [acc.reverse]
  | ch :: rest, acc =>
      if ch = '.' then acc.reverse :: splitDotsAux rest []
      else splitDotsAux rest (ch :: acc)

/-- Split of the compact token string on the dot separator. -/
def splitDots (s : String) : List String :=
  (splitDotsAux s.data []).map String.mk

theorem string_mk_data (s : String) : String.mk s.data = s := rfl

theorem splitDotsAux_no_dot (l : List Char) (acc : List Char)
    (h : ∀ ch ∈ l, ch ≠ '.') :
    splitDotsAux l acc = [acc.reverse ++ l] := by
  induction l generalizing acc with
  | nil => simp [splitDotsAux]
  | cons ch rest ih =>
      have hch : ch ≠ '.' := h ch (by simp)
      rw [splitDotsAux, if_neg hch, ih _ (fun d hd => h d (by simp [hd]))]
      simp

theorem splitDotsAux_append (l rest : List Char) (acc : List Char)
    (hl : ∀ ch ∈ l, ch ≠ '.') :
    splitDotsAux (l ++ '.' :: rest) acc =
      (acc.reverse ++ l) :: splitDotsAux rest [] := by
  induction l generalizing acc with
  | nil => simp [splitDotsAux]
  | cons ch tl ih =>
      have hch : ch ≠ '.' := hl ch (by simp)
      rw [List.cons_append, splitDotsAux, if_neg hch,
        ih _ (fun d hd => hl d (by simp [hd]))]
      simp

theorem splitDots_three (a b c : String)
    (hha : ∀ ch ∈ a.data, ch ≠ '.') (hhb : ∀ ch ∈ b.data, ch ≠ '.')
    (hhc : ∀ ch ∈ c.data, ch ≠ '.') :
    splitDots (a ++ "." ++ b ++ "." ++ c) = [a, b, c] := by
  have hd : (a ++ "." ++ b ++ "." ++ c).data
      = a.data ++ '.' :: (b.data ++ '.' :: c.data) := by
    simp [String.data_append]
  unfold splitDots
  rw [hd, splitDotsAux_append _ _ _ hha, splitDotsAux_append _ _ _ hhb,
    splitDotsAux_no_dot _ _ hhc]
  simp [string_mk_data]

/-- Modelled from the spec: the decode-path error taxonomy (§7); the
algorithm-confusion rejection of §4.5 step 3 has no name in the taxonomy
and appears here as `AlgorithmRejected`.  The encode/decode orchestration
(`jwt_object`) is only a forward declaration in the source header. -/
inductive jwt_error where
  | UnknownAlgorithm : jwt_error
  | KeyMismatch : jwt_error
  | MalformedToken : jwt_error
  | MalformedHeader : jwt_error
  | MalformedPayload : jwt_error
  | SignatureInvalid : jwt_error
  | TokenExpired : jwt_error
  | TokenNotYetValid : jwt_error
  | ClaimMismatch : jwt_error
  | ClaimMissing : jwt_error
  | AlgorithmRejected : jwt_error
  deriving DecidableEq, Repr

/-- Modelled from the spec: the Algorithm Registry `parse` (§4.1), which
rejects any string not exactly (case-sensitively) matching a registered
name; the registered names are the ten of §6. -/
def str_to_alg (s : String) : Option algorithm :=
  if s = "NONE" then some algorithm.NONE
  else if s = "HS256" then some algorithm.HS256
  else if s = "HS384" then some algorithm.HS384
  else if s = "HS512" then some algorithm.HS512
  else if s = "RS256" then some algorithm.RS256
  else if s = "RS384" then some algorithm.RS384
  else if s = "RS512" then some algorithm.RS512
  else if s = "ES256" then some algorithm.ES256
  else if s = "ES384" then some algorithm.ES384
  else if s = "ES512" then some algorithm.ES512
  else Option.none

theorem str_to_alg_alg_to_str (a : algorithm) (h : a ≠ algorithm.TERM) :
    str_to_alg (alg_to_str a) = some a := by
  cases a <;> first
    | rfl
    | exact absurd rfl h

/-- Modelled from the spec: the decode options (§4.5/§4.6): the explicit
opt-in for the `NONE` algorithm, the clock-skew tolerance, and the
configured expected values for the matchable registered claims. -/
structure decode_options where
  allow_none : Bool
  skew : Int
  expected_iss : Option String
  expected_aud : Option String
  expected_sub : Option String
  expected_jti : Option String
  deriving DecidableEq, Repr

/-- Modelled from the spec: the default options — `NONE` disallowed, no
skew, no required claim values. -/
def default_options : decode_options :=
  ⟨false, 0, Option.none, Option.none, Option.none, Option.none⟩

/-- Sequencing of two validation steps: the first failure wins. -/
def vseq (a b : Except jwt_error Unit) : Except jwt_error Unit :=
  match a with
  | Except.ok _ => b
  | Except.error e => Except.error e

/-- Modelled from the spec: one expected-value claim check of §4.6: when an
expected value is configured, the claim must be present (else
`ClaimMissing`) and equal to it (else `ClaimMismatch`). -/
def check_expected (pl : jsonObj) (key : String) (want : Option String) :
    Except jwt_error Unit :=
  match want with
  | Option.none => Except.ok ()
  | some w =>
      match objGet pl key with
      | Option.none => Except.error jwt_error.ClaimMissing
      | some v =>
          if v = jsonv.Str w then Except.ok ()
          else Except.error jwt_error.ClaimMismatch

/-- Modelled from the spec: the `exp` check of §4.6: if present (as a
number), the current time must be at most `exp + skew`. -/
def check_exp (o : decode_options) (now : Int) (pl : jsonObj) :
    Except jwt_error Unit :=
  match objGet pl "exp" with
  | some (jsonv.Num e) =>
      if now ≤ e + o.skew then Except.ok ()
      else Except.error jwt_error.TokenExpired
  | _ => Except.ok ()

/-- Modelled from the spec: the `nbf` check of §4.6: if present (as a
number), the current time must be at least `nbf - skew`. -/
def check_nbf (o : decode_options) (now : Int) (pl : jsonObj) :
    Except jwt_error Unit :=
  match objGet pl "nbf" with
  | some (jsonv.Num nb) =>
      if nb - o.skew ≤ now then Except.ok ()
      else Except.error jwt_error.TokenNotYetValid
  | _ => Except.ok ()

/-- Modelled from the spec: claim validation (§4.6) under the options. -/
def validate_claims (o : decode_options) (now : Int) (pl : jsonObj) :
    Except jwt_error Unit :=
  vseq (check_exp o now pl)
    (vseq (check_nbf o now pl)
      (vseq (check_expected pl "iss" o.expected_iss)
        (vseq (check_expected pl "aud" o.expected_aud)
          (vseq (check_expected pl "sub" o.expected_sub)
            (check_expected pl "jti" o.expected_jti)))))

/-- Modelled from the spec: the external collaborators (§1) the engine
dispatches to — the base64url codec over byte strings, the JSON value
serializer and its inverse, and the per-algorithm cryptographic sign and
verify primitives. -/
structure collaborators where
  b64enc : String → String
  b64dec : String → Option String
  jser : jsonObj → String
  jparse : String → Option jsonObj
  sign : algorithm → String → String → Option String
  verify : algorithm → String → String → String → Bool

/-- Modelled from the spec: the signing input (§4.4 step 3):
`b64(header) + "." + b64(payload)`. -/
def signing_input (c : collaborators) (h : jwt_header) (p : jwt_payload) :
    String :=
  c.b64enc (c.jser h.create_json_obj) ++ "." ++
    c.b64enc (c.jser p.create_json_obj)

/-- Modelled from the spec: the token encode path (§4.4): serialize and
base64url-encode header and payload, join with a dot, sign the joined
input, and append the base64url signature (empty for `NONE`); a signer
failure (`KeyMismatch`) propagates as `Option.none`. -/
def encode (c : collaborators) (h : jwt_header) (p : jwt_payload)
    (key : String) : Option String :=
  if h.alg_ = algorithm.NONE then some (signing_input c h p ++ ".")
  else
    match c.sign h.alg_ key (signing_input c h p) with
    | some sg => some (signing_input c h p ++ "." ++ c.b64enc sg)
    | Option.none => Option.none

/-- Modelled from the spec: the decode/verify path (§4.5): split into three
dot-separated segments, base64url-decode and JSON-parse the header, take
the `alg` entry (exact lowercase key), parse it through the registry and
reject it unless it is among the caller's expected algorithms, rebuild the
signing input from the raw wire segments, verify the signature (for `NONE`:
require an empty signature and the explicit opt-in), then decode, parse and
validate the payload, returning its claims. -/
def decode_and_verify (c : collaborators) (tok : String) (key : String)
    (expected : List algorithm) (o : decode_options) (now : Int) :
    Except jwt_error jsonObj :=
  match splitDots tok with
  | [hseg, pseg, sseg] =>
      match c.b64dec hseg with
      | Option.none => Except.error jwt_error.MalformedToken
      | some hjson =>
          match c.jparse hjson with
          | Option.none => Except.error jwt_error.MalformedHeader
          | some hobj =>
              match objGet hobj "alg" with
              | some (jsonv.Str aname) =>
                  match str_to_alg aname with
                  | Option.none => Except.error jwt_error.UnknownAlgorithm
                  | some alg =>
                      if alg ∈ expected then
                        match c.b64dec sseg with
                        | Option.none => Except.error jwt_error.MalformedToken
                        | some sigbytes =>
                            if (if alg = algorithm.NONE
                                then decide (sigbytes = "") && o.allow_none
                                else c.verify alg key (hseg ++ "." ++ pseg)
                                  sigbytes) then
                              match c.b64dec pseg with
                              | Option.none =>
                                  Except.error jwt_error.MalformedPayload
                              | some pjson =>
                                  match c.jparse pjson with
                                  | Option.none =>
                                      Except.error jwt_error.MalformedPayload
                                  | some pobj =>
                                      match validate_claims o now pobj with
                                      | Except.ok _ => Except.ok pobj
                                      | Except.error e => Except.error e
                            else Except.error jwt_error.SignatureInvalid
                      else Except.error jwt_error.AlgorithmRejected
              | _ => Except.error jwt_error.MalformedHeader
  | _ => Except.error jwt_error.MalformedToken

theorem objGet_header_alg (h : jwt_header) :
    objGet h.create_json_obj "alg" = some (jsonv.Str (alg_to_str h.alg_)) := by
  cases h with
  | mk a t => cases t; rfl

/-- C1 (modelled from the spec, §4.4/§4.5): the encode/decode round-trip.
For a header and payload whose algorithm is a registered algorithm other
than `NONE`, with the external collaborators behaving per their contracts
on the values involved (base64url decoding inverts encoding, JSON parsing
inverts serialization, the produced segments are dot-free, and the verifier
accepts the signer's signature under the same key), and a payload passing
claim validation at decode time, decoding the encoded token with the same
key, expected algorithms `{alg}` and the default options succeeds and
returns claims equal to the original ones. -/
theorem encode_decode_roundtrip
    (c : collaborators) (h : jwt_header) (p : jwt_payload)
    (key : String) (now : Int) (sg : String)
    (ha1 : h.alg_ ≠ algorithm.NONE)
    (ha2 : h.alg_ ≠ algorithm.TERM)
    (hb : c.b64dec (c.b64enc (c.jser h.create_json_obj)) =
      some (c.jser h.create_json_obj))
    (pb : c.b64dec (c.b64enc (c.jser p.create_json_obj)) =
      some (c.jser p.create_json_obj))
    (hj : c.jparse (c.jser h.create_json_obj) = some h.create_json_obj)
    (pj : c.jparse (c.jser p.create_json_obj) = some p.create_json_obj)
    (hsig : c.sign h.alg_ key (signing_input c h p) = some sg)
    (sb : c.b64dec (c.b64enc sg) = some sg)
    (hver : c.verify h.alg_ key (signing_input c h p) sg = true)
    (hd1 : ∀ ch ∈ (c.b64enc (c.jser h.create_json_obj)).data, ch ≠ '.')
    (hd2 : ∀ ch ∈ (c.b64enc (c.jser p.create_json_obj)).data, ch ≠ '.')
    (hd3 : ∀ ch ∈ (c.b64enc sg).data, ch ≠ '.')
    (hval : validate_claims default_options now p.create_json_obj =
      Except.ok ()) :
    encode c h p key = some (signing_input c h p ++ "." ++ c.b64enc sg) ∧
    decode_and_verify c (signing_input c h p ++ "." ++ c.b64enc sg) key
      [h.alg_] default_options now = Except.ok p.create_json_obj := by
  constructor
  · rw [encode, if_neg ha1, hsig]
  · have hsplit :
        splitDots (signing_input c h p ++ "." ++ c.b64enc sg) =
          [c.b64enc (c.jser h.create_json_obj),
           c.b64enc (c.jser p.create_json_obj), c.b64enc sg] := by
      rw [signing_input]
      exact splitDots_three _ _ _ hd1 hd2 hd3
    rw [decode_and_verify, hsplit]
    simp only [hb, hj, objGet_header_alg, str_to_alg_alg_to_str h.alg_ ha2, sb,
      pb, pj]
    rw [if_pos (List.mem_singleton_self h.alg_), if_neg ha1]
    rw [show (c.b64enc (c.jser h.create_json_obj) ++ "." ++
        c.b64enc (c.jser p.create_json_obj)) = signing_input c h p from rfl]
    rw [hver]
    simp only [if_true]
    rw [hval]

/-- A concrete header choosing `HS256`, for the round-trip witness. -/
def hdr0 : jwt_header := ⟨algorithm.HS256, type.JWT⟩

/-- Concrete collaborators for the round-trip witness: a finite-table
base64url codec and JSON codec covering the three segments involved, and a
signer/verifier pair agreeing on one signature. -/
def c0 : collaborators :=
  ⟨fun s => if s = "HJ" then "AAA" else if s = "PJ" then "BBB"
     else if s = "SG" then "CCC" else "",
   fun s => if s = "AAA" then some "HJ" else if s = "BBB" then some "PJ"
     else if s = "CCC" then some "SG" else Option.none,
   fun o => if o = hdr0.create_json_obj then "HJ"
     else if o = p_sub.create_json_obj then "PJ" else "",
   fun s => if s = "HJ" then some hdr0.create_json_obj
     else if s = "PJ" then some p_sub.create_json_obj else Option.none,
   fun _ _ _ => some "SG",
   fun _ _ _ _ => true⟩

/-- C1 witness: the round-trip theorem applied at the concrete header,
payload and collaborators. -/
theorem encode_decode_roundtrip_w :
    encode c0 hdr0 p_sub "k" =
      some (signing_input c0 hdr0 p_sub ++ "." ++ c0.b64enc "SG") ∧
    decode_and_verify c0 (signing_input c0 hdr0 p_sub ++ "." ++ c0.b64enc "SG")
      "k" [hdr0.alg_] default_options 0 = Except.ok p_sub.create_json_obj :=
  encode_decode_roundtrip c0 hdr0 p_sub "k" 0 "SG"
    (by decide) (by decide) (by decide) (by decide) (by decide) (by decide)
    (by decide) (by decide) (by decide) (by decide) (by decide) (by decide)
    (by rfl)

end jwt
